import Mathlib

/-!
Verification of the schema-inference and secure-execution subsystem of the
mcp-skill-server repository (`src/mcp_skill_server/executor.py` and
`src/mcp_skill_server/loader.py`) against its natural-language specification.

The Python code is shallowly embedded: pure text functions become Lean
functions on `List Char` / `String`; subprocess invocations and the file
system become explicit oracles passed as arguments.  Regular expressions of
the source are modelled by deterministic scanners that implement the same
matching behaviour (greedy repetition with the backtracking the concrete
patterns can actually exercise); each scanner is documented with the regex it
embeds.
-/

set_option maxRecDepth 10000

/-! ## Basic character and list utilities -/

/-- White-space characters of Python's `str.strip` / regex `\s` (ASCII range). -/
def isPySpace (c : Char) : Bool :=
  decide (c = ' ') || decide (c = '\t') || decide (c = '\n') || decide (c = '\r') ||
    decide (c = '\x0b') || decide (c = '\x0c')

/-- Word characters of regex `\w` under `re.ASCII`: `[A-Za-z0-9_]`. -/
def isWordChar (c : Char) : Bool :=
  c.isAlphanum || decide (c = '_')

/-- Characters of the regex class `[\w-]`. -/
def isWordDash (c : Char) : Bool :=
  isWordChar c || decide (c = '-')

/-- Characters of the regex class `[A-Z_]`. -/
def isUpperUnd (c : Char) : Bool :=
  (decide ('A' ≤ c) && decide (c ≤ 'Z')) || decide (c = '_')

/-- Python `str.split(sep)` on a one-character separator (keeps empty pieces). -/
def splitCharAux (sep : Char) : List Char → List Char → List (List Char)
  | [], acc => [acc.reverse]
  | c :: cs, acc =>
    if c = sep then acc.reverse :: splitCharAux sep cs []
    else splitCharAux sep cs (c :: acc)

/-- Split a character list at every occurrence of `sep`. -/
def splitChar (sep : Char) (l : List Char) : List (List Char) :=
  splitCharAux sep l []

/-- Python `str.strip()`: drop surrounding white space. -/
def trimChars (l : List Char) : List Char :=
  ((l.dropWhile isPySpace).reverse.dropWhile isPySpace).reverse

/-- Python `str.lower()` (ASCII case folding suffices for the texts at hand). -/
def lowerL (l : List Char) : List Char :=
  l.map Char.toLower

/-- Substring containment, Python's `pat in s`. -/
def strContains (s pat : List Char) : Bool :=
  s.tails.any (fun t => pat.isPrefixOf t)

/-- Python `str.startswith` on whole strings. -/
def strStartsWith (s pre : String) : Bool :=
  pre.data.isPrefixOf s.data

/-- Python `str.endswith` on whole strings. -/
def strEndsWith (s suf : String) : Bool :=
  suf.data.isSuffixOf s.data

/-- `str.replace("-", "_")` for one-character patterns. -/
def replaceDashUnd (l : List Char) : List Char :=
  l.map (fun c => if c = '-' then '_' else c)

/-- `str.replace("_", "-")` as used when turning parameter names into flags. -/
def flagName (s : String) : String :=
  String.mk (s.data.map (fun c => if c = '_' then '-' else c))

/-- Path components of a POSIX path string: split on `/`, dropping empty
pieces (mirrors `pathlib.PurePosixPath.parts` for the relative part). -/
def splitSlash (s : String) : List String :=
  ((splitChar '/' s.data).filter (fun l => !l.isEmpty)).map String.mk

/-- Join path components with `/`. -/
def joinSlash (comps : List String) : String :=
  String.intercalate "/" comps

/-- `os.path.isabs` on POSIX: the string starts with `/`. -/
def isAbsPath (s : String) : Bool :=
  strStartsWith s "/"

/-- Lexical path normalization: models `Path.resolve()` on a symlink-free
tree (empty and `.` components dropped, `..` pops, `..` at the root stays at
the root). -/
def resolveComponents (comps : List String) : List String :=
  comps.foldl
    (fun acc c =>
      if c = "" then acc
      else if c = "." then acc
      else if c = ".." then acc.dropLast
      else acc ++ [c]) []

/-- Lexicographic comparison of character lists by code point, as Python
compares strings. -/
def listCharLe : List Char → List Char → Bool
  | [], _ => true
  | _ :: _, [] => false
  | a :: as, b :: bs =>
    if a = b then listCharLe as bs else decide (a.toNat < b.toNat)

/-- String comparison used by Python `sorted`. -/
def strLe (x y : String) : Bool :=
  listCharLe x.data y.data

/-- Insertion step for sorting strings (Python `sorted` is lexicographic). -/
def insertStr (x : String) : List String → List String
  | [] => [x]
  | y :: ys => if strLe x y then x :: y :: ys else y :: insertStr x ys

/-- Sort a list of strings, modelling Python's `sorted`. -/
def sortStr : List String → List String
  | [] => []
  | x :: xs => insertStr x (sortStr xs)

/-! ## POSIX shell field splitting (`shlex.split`, posix mode)

A deterministic state machine over the input characters.  Modes: outside any
quote (`norm`), inside single quotes (`single`), inside double quotes
(`double`), and the two backslash-escape continuations.  An input that ends
inside a quote or escape is a tokenization error (`shlex` raises
`ValueError`), reported as `none`. -/

inductive SMode
  | norm
  | single
  | double
  | escN
  | escD
deriving DecidableEq

/-- Scanner state: current mode, characters of the token being built, whether
a token is in progress, and the tokens already emitted. -/
structure SState where
  mode : SMode
  cur : List Char
  started : Bool
  acc : List String
deriving DecidableEq

/-- One transition of the shell splitter. -/
def step (s : SState) (c : Char) : SState :=
  match s.mode with
  | .norm =>
    if c = '\'' then { s with mode := .single, started := true }
    else if c = '"' then { s with mode := .double, started := true }
    else if c = '\\' then { s with mode := .escN }
    else if isPySpace c then
      if s.started then { s with cur := [], started := false, acc := s.acc ++ [String.mk s.cur] }
      else s
    else { s with cur := s.cur ++ [c], started := true }
  | .single =>
    if c = '\'' then { s with mode := .norm }
    else { s with cur := s.cur ++ [c] }
  | .double =>
    if c = '"' then { s with mode := .norm }
    else if c = '\\' then { s with mode := .escD }
    else { s with cur := s.cur ++ [c] }
  | .escN =>
    if c = '\n' then { s with mode := .norm }
    else { s with mode := .norm, cur := s.cur ++ [c], started := true }
  | .escD =>
    if c = '"' || c = '\\' || c = '$' || c = Char.ofNat 96 then
      { s with mode := .double, cur := s.cur ++ [c] }
    else if c = '\n' then { s with mode := .double }
    else { s with mode := .double, cur := s.cur ++ ['\\', c] }

/-- Run the splitter over a character list. -/
def runSM (cs : List Char) (s : SState) : SState :=
  cs.foldl step s

/-- Tokens delivered by a final state (the pending token, if any, included). -/
def emitAcc (s : SState) : List String :=
  if s.started then s.acc ++ [String.mk s.cur] else s.acc

/-- Accept only inputs that end outside quotes and escapes. -/
def finalize (s : SState) : Option (List String) :=
  match s.mode with
  | .norm => some (emitAcc s)
  | _ => none

/-- Initial scanner state. -/
def initState : SState :=
  ⟨.norm, [], false, []⟩

/-- `shlex.split(s)` (posix): `none` models the `ValueError` on an
unterminated quote or escape. -/
def shellSplit (s : String) : Option (List String) :=
  finalize (runSM s.data initState)

/-! ## `shlex.quote` -/

/-- Characters `shlex.quote` considers safe: its unsafe-character regex
(complement of `\w` and of `@ % + = : , . - /` under `re.ASCII`) finds
nothing. -/
def isShlexSafe (c : Char) : Bool :=
  c.isAlphanum || decide (c = '_') || decide (c = '@') || decide (c = '%') ||
    decide (c = '+') || decide (c = '=') || decide (c = ':') || decide (c = ',') ||
    decide (c = '.') || decide (c = '/') || decide (c = '-')

/-- `s.replace("'", "'\"'\"'")` character by character. -/
def quoteBody : List Char → List Char
  | [] => []
  | c :: cs =>
    if c = '\'' then '\'' :: '"' :: '\'' :: '"' :: '\'' :: quoteBody cs
    else c :: quoteBody cs

/-- Python's `shlex.quote`. -/
def shlexQuote (s : String) : String :=
  if s.data.isEmpty then String.mk ['\'', '\'']
  else if s.data.all isShlexSafe then s
  else String.mk ('\'' :: (quoteBody s.data ++ ['\'']))

/-! ## Data model (`loader.py` dataclasses) -/

/-- `SkillParameter` dataclass of `loader.py`. -/
structure SkillParameter where
  name : String
  required : Bool
  type : String
  description : String
deriving DecidableEq

/-- `SkillCommand` dataclass of `loader.py`. -/
structure SkillCommand where
  name : String
  description : String
  bash_template : String
  parameters : List SkillParameter
deriving DecidableEq

/-! ## Entry-command validation (`SkillExecutor._validate_entry_command`) -/

/-- The `ALLOWED_RUNTIMES` tuple of `executor.py`. -/
def ALLOWED_RUNTIMES : List String :=
  ["python", "python3", "uv run python", "uv run", "node", "bash", "sh", "./"]

/-- The runtime gate: `any(entry_command.startswith(rt) for rt in ALLOWED_RUNTIMES)`.
A character-level prefix test on the whole command string. -/
def runtimeAllowed (entry : String) : Bool :=
  ALLOWED_RUNTIMES.any (fun rt => strStartsWith entry rt)

/-- Failure reasons of `_validate_entry_command` (each a distinct `ValueError`
message in the source); `unterminatedQuote` is the `ValueError` that
`shlex.split` itself raises. -/
inductive ValidationError
  | disallowedRuntime
  | unterminatedQuote
  | absolutePath (tok : String)
  | escapesSandbox (tok : String)
  | scriptNotFound (tok : String)
deriving DecidableEq

/-- Result of validation. -/
inductive VResult
  | passed
  | failed (e : ValidationError)
deriving DecidableEq

/-- Does a token look like a script (`.py`/`.sh`/`.js` suffix)? -/
def isScriptToken (p : String) : Bool :=
  strEndsWith p ".py" || strEndsWith p ".sh" || strEndsWith p ".js"

/-- Outcome of the token scan of `_validate_entry_command`. -/
inductive FindScript
  | fail (e : ValidationError)
  | script (s : String)
  | noScript
deriving DecidableEq

/-- The per-token loop of `_validate_entry_command`: each token is first
checked for absoluteness, then for being a script token; the loop stops
(`break`) at the first script token, leaving later tokens unexamined. -/
def findScriptToken : List String → FindScript
  | [] => .noScript
  | p :: ps =>
    if isAbsPath p then .fail (.absolutePath p)
    else if isScriptToken p then .script p
    else if strStartsWith p "./" then .script p
    else findScriptToken ps

/-- `SkillExecutor._validate_entry_command`.  The file system is an oracle
`fsE` on resolved component paths; `skillDir` is the absolute skill directory
as a component list.  Path canonicalization is lexical (symlink-free tree). -/
def validate_entry_command (fsE : List String → Bool) (entry : String)
    (skillDir : List String) : VResult :=
  if runtimeAllowed entry = false then .failed .disallowedRuntime
  else
    match shellSplit entry with
    | none => .failed .unterminatedQuote
    | some parts =>
      match findScriptToken parts with
      | .fail e => .failed e
      | .noScript => .passed
      | .script script =>
        let dirR := resolveComponents skillDir
        let full := resolveComponents (skillDir ++ splitSlash script)
        if dirR.isPrefixOf full = false then .failed (.escapesSandbox script)
        else if fsE full = false then .failed (.scriptNotFound script)
        else .passed

/-! ## Type inference (`loader.infer_type`) -/

/-- Does any of the given words occur in the string? -/
def containsWord (s : List Char) (ws : List (List Char)) : Bool :=
  ws.any (fun w => strContains s w)

/-- Metavar words that imply `int`. -/
def intWords : List (List Char) :=
  ["year".data, "count".data, "num".data, "id".data, "port".data, "size".data]

/-- Metavar words that imply `string`. -/
def strWords : List (List Char) :=
  ["file".data, "path".data, "name".data, "dir".data, "url".data, "string".data]

/-- Description words that imply `int`. -/
def intDescWords : List (List Char) :=
  ["integer".data, "number".data]

/-- Description words that imply `float`. -/
def floatDescWords : List (List Char) :=
  ["float".data, "decimal".data]

/-- Description words that imply `bool`. -/
def boolDescWords : List (List Char) :=
  ["true".data, "false".data, "enable".data, "disable".data]

/-- `loader.infer_type`; `none` and the empty string are both falsy in
Python's `if not metavar`. -/
def infer_type (metavar : Option String) (description : String) : String :=
  match metavar with
  | none => "bool"
  | some mv =>
    if mv.data.isEmpty then "bool"
    else
      let m := lowerL mv.data
      let d := lowerL description.data
      if containsWord m intWords then "int"
      else if containsWord m strWords then "string"
      else if containsWord d intDescWords then "int"
      else if containsWord d floatDescWords then "float"
      else if containsWord d boolDescWords then "bool"
      else "string"

/-! ## Command building (`SkillExecutor._build_command`) -/

/-- One step of `_build_command`: append ` --<flag> <shlex.quote(value)>`
when the parameter has a (non-`None`) supplied value. -/
def applyArg (cmd : String) (vals : String → Option String) (p : SkillParameter) : String :=
  match vals p.name with
  | none => cmd
  | some v => cmd ++ " --" ++ flagName p.name ++ " " ++ shlexQuote v

/-- `SkillExecutor._build_command`: fold the schema over the template.
`vals` models `parameters.get` (absent keys and `None` values both give
`none`); values are already strings (`str(value)` in the source). -/
def build_command (template : String) (schema : List SkillParameter)
    (vals : String → Option String) : String :=
  schema.foldl (fun cmd p => applyArg cmd vals p) template

/-- The shell tokens a parameter contributes to the built command line. -/
def argTokens (vals : String → Option String) (p : SkillParameter) : List String :=
  match vals p.name with
  | none => []
  | some v => ["--" ++ flagName p.name, v]

/-- All tokens contributed by a schema. -/
def argTokensAll (schema : List SkillParameter) (vals : String → Option String) :
    List String :=
  (schema.map (argTokens vals)).flatten

/-! ## Help-text parsing (`loader.parse_parameters`, `loader.parse_subcommands`)

The regular expressions of the source are embedded as deterministic
scanners.  Greedy character-class repetitions (`[\w-]+`, `[A-Z_]+`, `\S+`,
`\s+`) never benefit from giving characters back here, because in every
pattern the character that follows such a repetition comes from a disjoint
class; the only genuine backtracking points are optional groups and the
`\s{2,}(.+)` tail, which are handled explicitly. -/

/-- The `--?([\w-]+)` part of the option patterns: a dash, an optional second
dash, then one or more `[\w-]` characters (group), returning the group and
the remaining input.  When `--` is followed by no word character, the second
dash itself is matched by `[\w-]+`, as the regex backtracking does. -/
def parseDashGroup : List Char → Option (List Char × List Char)
  | '-' :: rest =>
    match rest with
    | '-' :: rest2 =>
      let g := rest2.takeWhile isWordDash
      if g.isEmpty then
        let g2 := rest.takeWhile isWordDash
        some (g2, rest.drop g2.length)
      else some (g, rest2.drop g.length)
    | _ =>
      let g := rest.takeWhile isWordDash
      if g.isEmpty then none else some (g, rest.drop g.length)
  | _ => none

/-- The `(?:\s+([A-Z_]+))?(?:\s|$)` tail of the option-line pattern: an
optional metavar group, then a white-space character or end of line. -/
def parseMetavarTail (l : List Char) : Option (Option (List Char)) :=
  let without := if l.isEmpty || isPySpace (l.headD '?') then some none else none
  let ws := l.takeWhile isPySpace
  if ws.isEmpty then without
  else
    let r1 := l.drop ws.length
    let mvg := r1.takeWhile isUpperUnd
    if mvg.isEmpty then without
    else
      let r2 := r1.drop mvg.length
      if r2.isEmpty || isPySpace (r2.headD '?') then some (some mvg) else without

/-- The anchored core `--?([\w-]+)(?:\s+([A-Z_]+))?(?:\s|$)`. -/
def optCore (r : List Char) : Option (List Char × Option (List Char)) :=
  match parseDashGroup r with
  | none => none
  | some pr =>
    match parseMetavarTail pr.2 with
    | none => none
    | some mv => some (pr.1, mv)

/-- `re.match` of the option-line pattern
`\s+(?:-\w,\s+)?--?([\w-]+)(?:\s+([A-Z_]+))?(?:\s|$)`: leading white space,
an optional short-option prefix `-x, `, then the core; if the pattern fails
with the short-option prefix consumed, the regex retries without it. -/
def matchOptLine (l : List Char) : Option (List Char × Option (List Char)) :=
  let ws := l.takeWhile isPySpace
  if ws.isEmpty then none
  else
    let r := l.drop ws.length
    match r with
    | '-' :: c :: ',' :: r2 =>
      if isWordChar c then
        let ws2 := r2.takeWhile isPySpace
        if ws2.isEmpty then optCore r
        else
          match optCore (r2.drop ws2.length) with
          | some res => some res
          | none => optCore r
      else optCore r
    | _ => optCore r

/-- The `\s{2,}(.+)` tail: at least two white-space characters, then at least
one character (the raw group, greedy).  The greedy `\s` run gives back one
character when the line would otherwise end. -/
def twoWsThenRest (t : List Char) : Option (List Char) :=
  let w := (t.takeWhile isPySpace).length
  if 2 ≤ w ∧ 3 ≤ t.length then some (t.drop (min w (t.length - 1))) else none

/-- Anchored attempt of the same-line-description pattern
`--[\w-]+(?:\s+[A-Z_]+)?\s{2,}(.+)` at the head of `l`. -/
def slDescAt (l : List Char) : Option (List Char) :=
  match l with
  | '-' :: '-' :: r2 =>
    let g := r2.takeWhile isWordDash
    if g.isEmpty then none
    else
      let r3 := r2.drop g.length
      let withMv :=
        let ws := r3.takeWhile isPySpace
        if ws.isEmpty then none
        else
          let r4 := r3.drop ws.length
          let mvg := r4.takeWhile isUpperUnd
          if mvg.isEmpty then none
          else twoWsThenRest (r4.drop mvg.length)
      match withMv with
      | some d => some d
      | none => twoWsThenRest r3
  | _ => none

/-- `re.search` of the same-line-description pattern: try every start
position, leftmost match wins. -/
def sameLineDescSearch : List Char → Option (List Char)
  | [] => none
  | c :: r =>
    match slDescAt (c :: r) with
    | some d => some d
    | none => sameLineDescSearch r

/-- One bracket group of the usage-line pattern `\[--[\w-]+(?:\s+[A-Z_]+)?\]`,
matched right after a `[`; returns the input after the closing `]`. -/
def matchOptBracket (r : List Char) : Option (List Char) :=
  match r with
  | '-' :: '-' :: r2 =>
    let g := r2.takeWhile isWordDash
    if g.isEmpty then none
    else
      let r3 := r2.drop g.length
      match r3 with
      | ']' :: r4 => some r4
      | _ =>
        let ws := r3.takeWhile isPySpace
        if ws.isEmpty then none
        else
          let r4 := r3.drop ws.length
          let mv := r4.takeWhile isUpperUnd
          if mv.isEmpty then none
          else
            match r4.drop mv.length with
            | ']' :: r5 => some r5
            | _ => none
  | _ => none

/-- `re.sub` of the bracketed-optional pattern with the empty string:
non-overlapping left-to-right removal.  Fuel bounds the recursion; the
callers supply `length + 1`, which always suffices since every step consumes
at least one character. -/
def stripOptAux : Nat → List Char → List Char
  | 0, l => l
  | _ + 1, [] => []
  | fuel + 1, c :: r =>
    if c = '[' then
      match matchOptBracket r with
      | some rest => stripOptAux fuel rest
      | none => '[' :: stripOptAux fuel r
    else c :: stripOptAux fuel r

/-- Strip `[--flag]` / `[--flag METAVAR]` groups from a usage line. -/
def stripOptBrackets (l : List Char) : List Char :=
  stripOptAux (l.length + 1) l

/-- `re.findall` of `--?([\w-]+)`: non-overlapping matches, left to right. -/
def findFlagsAux : Nat → List Char → List (List Char)
  | 0, _ => []
  | _ + 1, [] => []
  | fuel + 1, l@(_ :: r) =>
    match parseDashGroup l with
    | some pr => pr.1 :: findFlagsAux fuel pr.2
    | none => findFlagsAux fuel r

/-- All `--?([\w-]+)` groups of a line. -/
def findFlags (l : List Char) : List (List Char) :=
  findFlagsAux (l.length + 1) l

/-- The required-parameter names harvested from the usage line: strip
bracketed optional groups, collect the remaining flag tokens, drop `h` and
`help`, and normalize hyphens to underscores. -/
def requiredParamsOf (line0 : List Char) : List (List Char) :=
  if ("usage:".data).isPrefixOf line0 then
    ((findFlags (stripOptBrackets line0)).filter
        (fun g => !(decide (g = "h".data) || decide (g = "help".data)))).map replaceDashUnd
  else []

/-- Continuation-description collection: consume following lines indented by
at least ten spaces, returning the accumulated raw description and the number
of lines consumed. -/
def contLines : List (List Char) → (List Char × Nat)
  | [] => ([], 0)
  | l :: ls =>
    if (List.replicate 10 ' ').isPrefixOf l then
      let pr := contLines ls
      (trimChars l ++ (' ' :: pr.1), pr.2 + 1)
    else ([], 0)

/-- Remove every case-insensitive occurrence of `(required)`
(`re.sub(r"\(required\)", "", description, flags=re.IGNORECASE)`). -/
def stripRequiredAux : Nat → List Char → List Char
  | 0, l => l
  | _ + 1, [] => []
  | fuel + 1, l@(c :: r) =>
    if lowerL (l.take 10) = "(required)".data then stripRequiredAux fuel (l.drop 10)
    else c :: stripRequiredAux fuel r

/-- Remove `(required)` markers from a description. -/
def stripRequired (l : List Char) : List Char :=
  stripRequiredAux (l.length + 1) l

/-- Assemble one `SkillParameter` from a matched option line: required flag
from the usage-line set, overridden by a `(required)` marker in the
description (which is then stripped); the type is inferred from the metavar
and the final description. -/
def ppFinish (reqd : List (List Char)) (pname : List Char) (mv : Option (List Char))
    (desc0 : List Char) : SkillParameter :=
  let hasReq := strContains (lowerL desc0) ("(required)".data)
  let req := reqd.contains pname || hasReq
  let desc := if hasReq then trimChars (stripRequired desc0) else desc0
  ⟨String.mk pname, req, infer_type (mv.map String.mk) (String.mk desc), String.mk desc⟩

/-- Outcome of `parse_parameters`: a parameter list, or the
`UnboundLocalError` the source raises when the first matched non-help
parameter has its description on the same line (the local `j` is read by
`i = j` before any assignment).  `fuelOut` is a totality device only; the
fuel supplied by `parse_parameters` is never exhausted on terminating runs. -/
inductive PPOut
  | ok (ps : List SkillParameter)
  | crash
  | fuelOut
deriving DecidableEq

/-- The main loop of `parse_parameters`.  State: current line index `i`, the
set of parameter names already seen, the last value assigned to the local
`j` (`none` models "never assigned"), and the accumulated parameters.  In
the same-line-description branch the stale `j` is used for `i = j`, exactly
as the source does. -/
def ppAux (lines : List (List Char)) (reqd : List (List Char)) :
    Nat → Nat → List (List Char) → Option Nat → List SkillParameter → PPOut
  | 0, _, _, _, _ => .fuelOut
  | fuel + 1, i, seen, jSt, acc =>
    if hlt : i < lines.length then
      match matchOptLine (lines.get ⟨i, hlt⟩) with
      | none => ppAux lines reqd fuel (i + 1) seen jSt acc
      | some (g, mv) =>
        let pname := replaceDashUnd g
        if pname = "help".data ∨ pname = "h".data then
          ppAux lines reqd fuel (i + 1) seen jSt acc
        else if seen.contains pname then
          ppAux lines reqd fuel (i + 1) seen jSt acc
        else
          match sameLineDescSearch (lines.get ⟨i, hlt⟩) with
          | some raw =>
            match jSt with
            | none => .crash
            | some j =>
              ppAux lines reqd fuel j (pname :: seen) jSt
                (acc ++ [ppFinish reqd pname mv (trimChars raw)])
          | none =>
            let pr := contLines (lines.drop (i + 1))
            let j := i + 1 + pr.2
            ppAux lines reqd fuel j (pname :: seen) (some j)
              (acc ++ [ppFinish reqd pname mv (trimChars pr.1)])
    else .ok acc

/-- `loader.parse_parameters`. -/
def parse_parameters (help : String) : PPOut :=
  let lines := splitChar '\n' help.data
  let reqd := requiredParamsOf (lines.headD [])
  ppAux lines reqd ((lines.length + 2) * (lines.length + 2)) 0 [] none []

/-- `re.search(r"\{([^}]+)\}", line)` as a Boolean: an opening brace followed
by at least one non-brace character and a closing brace. -/
def bracesAt : List Char → Bool
  | '\x7b' :: r =>
    let inner := r.takeWhile (fun c => !(decide (c = '\x7d')))
    !inner.isEmpty &&
      (match r.drop inner.length with
       | '\x7d' :: _ => true
       | _ => false)
  | _ => false

/-- Does the line contain a brace-delimited choice list? -/
def hasBraces (l : List Char) : Bool :=
  l.tails.any bracesAt

/-- `re.match(r"\s{4,}(\S+)\s{2,}(.+)", line)`: at least four leading spaces,
a bare name, at least two spaces, a description. -/
def parseSubLine (l : List Char) : Option (List Char × List Char) :=
  let ws := l.takeWhile isPySpace
  if ws.length < 4 then none
  else
    let r := l.drop ws.length
    let name := r.takeWhile (fun c => !(isPySpace c))
    if name.isEmpty then none
    else
      match twoWsThenRest (r.drop name.length) with
      | some raw => some (name, raw)
      | none => none

/-- Insertion-ordered dictionary update (`subcommands[name] = desc`). -/
def assocSet (acc : List (List Char × List Char)) (k v : List Char) :
    List (List Char × List Char) :=
  if acc.any (fun p => decide (p.1 = k)) then
    acc.map (fun p => if p.1 = k then (k, v) else p)
  else acc ++ [(k, v)]

/-- The line loop of `parse_subcommands`: enter the positional-arguments
section, wait for the brace-delimited choice list, then collect indented
`name  description` lines until a non-indented line breaks the loop. -/
def psAux : List (List Char) → Bool → Bool → List (List Char × List Char) →
    List (List Char × List Char)
  | [], _, _, acc => acc
  | l :: rest, inPos, foundCh, acc =>
    if strContains (lowerL l) ("positional arguments:".data) then psAux rest true foundCh acc
    else if inPos && !l.isEmpty && !(decide (l.headD '?' = ' ')) then acc
    else if inPos && !foundCh && hasBraces l then psAux rest inPos true acc
    else if inPos && foundCh then
      match parseSubLine l with
      | some pr => psAux rest inPos foundCh (assocSet acc pr.1 (trimChars pr.2))
      | none => psAux rest inPos foundCh acc
    else psAux rest inPos foundCh acc

/-- `loader.parse_subcommands`. -/
def parse_subcommands (help : String) : List (List Char × List Char) :=
  psAux (splitChar '\n' help.data) false false []

/-! ## Command discovery (`loader.discover_commands`)

Subprocess invocations are oracles: `runTop` is the outcome of
`run_command(f"{entry} -h")` and `runSub name` the outcome of
`run_command(f"{entry} {name} -h")`.  `loader.run_command` never raises: a
timeout or spawn failure is already folded into a result with return code
`-1`, so the `isinstance(result, Exception)` arm of the source is
unreachable here. -/

/-- The anonymous result object of `loader.run_command`. -/
structure RunResult where
  stdout : String
  stderr : String
  returncode : Int
deriving DecidableEq

/-- Outcome of `discover_commands`: a name-to-command mapping in insertion
order, or a propagated `parse_parameters` crash. -/
inductive DiscOut
  | ok (cmds : List (String × SkillCommand))
  | crash
deriving DecidableEq

/-- The per-subcommand loop of `discover_commands`: a non-zero return code
skips the subcommand; a successful invocation has its stdout parsed, and a
`parse_parameters` crash propagates out of the whole discovery. -/
def discoverSubsAux (entry : String) (runSub : String → RunResult) :
    List (List Char × List Char) → List (String × SkillCommand) → DiscOut
  | [], acc => .ok acc
  | (n, d) :: rest, acc =>
    let r := runSub (String.mk n)
    if r.returncode ≠ 0 then discoverSubsAux entry runSub rest acc
    else
      match parse_parameters r.stdout with
      | .ok ps =>
        discoverSubsAux entry runSub rest
          (acc ++ [(String.mk n,
            ⟨String.mk n, String.mk d, entry ++ " " ++ String.mk n, ps⟩)])
      | _ => .crash

/-- `loader.discover_commands`. -/
def discover_commands (runTop : RunResult) (runSub : String → RunResult)
    (entry : String) : DiscOut :=
  if runTop.returncode ≠ 0 then .ok []
  else
    let subs := parse_subcommands runTop.stdout
    if subs.isEmpty then
      match parse_parameters runTop.stdout with
      | .ok ps => .ok [("default", ⟨"default", "", entry, ps⟩)]
      | _ => .crash
    else discoverSubsAux entry runSub subs []

/-! ## Output detection and execution (`SkillExecutor._execute_subprocess`,
`SkillExecutor.execute`)

The spawned process and the file system are an oracle: `before`/`after` are
the entry names of the skill's `output/` directory before and after the run
(the empty list when the directory is absent), and `isFileAt` answers
`path.exists() and path.is_file()` on resolved component paths. -/

/-- The new-output-file computation at the end of `_execute_subprocess`:
the sorted set difference of the `output/` listing, reported relative to the
skill directory; on success with an empty diff, fall back to the
`OUTPUT_FILE:` stdout marker.  `none` models the `ValueError` that
`relative_to` raises when an absolute marker path lies outside the skill
directory. -/
def findMarker : List Char → Option (List Char)
  | [] => none
  | c :: r =>
    if ("OUTPUT_FILE:".data).isPrefixOf (c :: r) then
      let t := (c :: r).drop 12
      let g := t.takeWhile (fun x => !(decide (x = '\n')))
      if g.isEmpty then findMarker r else some g
    else findMarker r

/-- New-output-file reconciliation (`_execute_subprocess`, after the process
has terminated). -/
def detectNewFiles (before after : List String) (returncode : Int) (stdout : String)
    (cwd : List String) (isFileAt : List String → Bool) : Option (List String) :=
  let newNames := sortStr (after.filter (fun n => !(before.contains n)))
  let newFiles := newNames.map (fun n => "output/" ++ n)
  if returncode = 0 ∧ newNames = [] then
    match findMarker stdout.data with
    | none => some newFiles
    | some raw =>
      let rf := String.mk (trimChars raw)
      if isAbsPath rf then
        let comps := splitSlash rf
        if isFileAt comps then
          if cwd.isPrefixOf comps then some [joinSlash (comps.drop cwd.length)]
          else none
        else some newFiles
      else
        let comps := cwd ++ splitSlash rf
        if isFileAt comps then some [rf] else some newFiles
  else some newFiles

/-- The fields of `ExecutionResult` the executor computes from the process
itself (`new_file_paths` coincides with `output_files` up to the directory
prefix, and `processed_outputs` belongs to the out-of-scope plugin layer). -/
structure ExecutionResult where
  success : Bool
  stdout : String
  stderr : String
  return_code : Int
  output_files : List String
deriving DecidableEq

/-- Errors `execute` can raise before or instead of returning a result. -/
inductive ExecError
  | unknownCommand (name : String)
  | security (e : ValidationError)
  | missingParams (ps : List String)
  | outputPathError
deriving DecidableEq

/-- Outcome of `execute`: an exception or an `ExecutionResult`. -/
inductive ExecOut
  | raised (e : ExecError)
  | returned (r : ExecutionResult)
deriving DecidableEq

/-- The skill entity as `execute` consumes it. -/
structure SkillModel where
  name : String
  entry_command : String
  directory : List String
  commands : List (String × SkillCommand)

/-- Oracle for one spawned process and the surrounding file system. -/
structure SubprocessSpec where
  returncode : Int
  stdout : String
  stderr : String
  beforeOutput : List String
  afterOutput : List String
  isFileAt : List String → Bool

/-- `skill.commands.get(command_name)`. -/
def lookupCmd (cmds : List (String × SkillCommand)) (n : String) : Option SkillCommand :=
  (cmds.find? (fun p => p.1 == n)).map (fun p => p.2)

/-- Required parameter names whose key is absent from the supplied mapping
(`p not in parameters`; a key present with a `None` value is not missing). -/
def missingOf (cmd : SkillCommand) (params : List (String × Option String)) :
    List String :=
  ((cmd.parameters.filter (fun p => p.required)).map (fun p => p.name)).filter
    (fun n => (params.lookup n).isNone)

/-- `parameters.get(name)`: `none` for an absent key and for a `None` value. -/
def valsOf (params : List (String × Option String)) : String → Option String :=
  fun n => (params.lookup n).bind id

/-- `SkillExecutor.execute`: command lookup, entry validation, the
missing-required-parameter check, then the subprocess (oracle) and output
reconciliation.  The built command line is what the shell receives; the
oracle describes what the spawned process did. -/
def execute (fsE : List String → Bool) (skill : SkillModel) (commandName : String)
    (params : List (String × Option String)) (sub : SubprocessSpec) : ExecOut :=
  match lookupCmd skill.commands commandName with
  | none => .raised (.unknownCommand commandName)
  | some cmd =>
    match validate_entry_command fsE skill.entry_command skill.directory with
    | .failed e => .raised (.security e)
    | .passed =>
      if missingOf cmd params ≠ [] then .raised (.missingParams (missingOf cmd params))
      else
        let _bash := build_command cmd.bash_template cmd.parameters (valsOf params)
        match detectNewFiles sub.beforeOutput sub.afterOutput sub.returncode sub.stdout
            skill.directory sub.isFileAt with
        | none => .raised .outputPathError
        | some files =>
          .returned ⟨decide (sub.returncode = 0), sub.stdout, sub.stderr,
            sub.returncode, files⟩

/-! ## Concrete help texts used by the claims -/

/-- Argparse help in its default layout: descriptions on the same line as
the option, separated by at least two spaces (the layout the repository's
own tests feed to `parse_parameters`). -/
def sameLineHelp : String :=
  "usage: s [-h] --year YEAR [--file FILE]\n\noptions:\n  -h, --help  show help\n  --year YEAR  the year\n  --file FILE  the file\n"

/-- The same schema with descriptions on continuation lines (indented ten
spaces), the layout `parse_parameters` handles without crashing. -/
def nextLineHelp : String :=
  "usage: s [-h] --year YEAR [--file FILE]\n\noptions:\n  -h, --help\n          show this help message and exit\n  --year YEAR\n          the year\n  --file FILE\n          the file\n"

/-- The parameters `parse_parameters` extracts from `nextLineHelp`. -/
def nextLineParams : List SkillParameter :=
  [⟨"year", true, "int", "the year"⟩, ⟨"file", false, "string", "the file"⟩]

/-- Top-level help advertising three subcommands. -/
def threeSubsHelp : String :=
  "usage: s [-h] \x7balpha,beta,gamma\x7d ...\n\npositional arguments:\n  \x7balpha,beta,gamma\x7d\n    alpha      do a\n    beta       do b\n    gamma      do c\n"

/-- Per-subcommand help in the default same-line layout (crashes the parser). -/
def subHelpSame : String :=
  "usage: s alpha [-h] [--x X]\n\noptions:\n  -h, --help  show help\n  --x X  the x\n"

/-- Per-subcommand help in the continuation-line layout. -/
def subHelpNext : String :=
  "usage: s alpha [-h] [--x X]\n\noptions:\n  -h, --help\n          show help\n  --x X\n          the x\n"

/-- Subcommand oracle: `beta` times out (return code `-1`), the others
answer with the crash-inducing same-line layout. -/
def runSubSame : String → RunResult :=
  fun n => if n = "beta" then ⟨"", "Command timed out", -1⟩ else ⟨subHelpSame, "", 0⟩

/-- Subcommand oracle: `beta` times out, the others answer with the
continuation-line layout. -/
def runSubNext : String → RunResult :=
  fun n => if n = "beta" then ⟨"", "Command timed out", -1⟩ else ⟨subHelpNext, "", 0⟩

/-- The splitter's state invariant: no token in progress means the current
token buffer is empty and the scanner is between tokens. -/
def SInv (s : SState) : Prop :=
  s.started = false → s.cur = [] ∧ (s.mode = .norm ∨ s.mode = .escN)

/-- Schema of the spec's injection example: one declared parameter. -/
def demoSchema : List SkillParameter :=
  [⟨"user_input", true, "string", "value to pass"⟩]

/-- Supplied values of the injection example. -/
def demoVals : String → Option String :=
  fun n => if n = "user_input" then some "; rm -rf /" else none

/-- Command, skill, file system, and failing subprocess used as the C9
witness. -/
def demoCmd : SkillCommand :=
  ⟨"default", "", "python s.py", [⟨"year", true, "int", ""⟩]⟩

def demoSkill : SkillModel :=
  ⟨"demo", "python s.py", ["skills", "demo"], [("default", demoCmd)]⟩

def demoFs : List String → Bool :=
  fun p => decide (p = ["skills", "demo", "s.py"])

def demoSub : SubprocessSpec :=
  ⟨2, "boom-out", "boom-err", [], [], fun _ => false⟩

/-! ## Lemmas: the shell splitter undoes `shlex.quote` -/

/-- Data of a concatenation. -/
theorem strDataAppend (s t : String) : (s ++ t).data = s.data ++ t.data := by
  cases s
  cases t
  rfl

/-- Rebuilding a string from its characters. -/
theorem strMkData (s : String) : String.mk s.data = s := by
  cases s
  rfl

theorem dataSpaceDashDash : " --".data = [' ', '-', '-'] := rfl

/-- A white-space character is not `shlex`-safe. -/
theorem pySpace_not_safe (c : Char) (h : isPySpace c = true) : isShlexSafe c = false := by
  simp only [isPySpace, Bool.or_eq_true, decide_eq_true_eq] at h
  rcases h with ((((h | h) | h) | h) | h) | h <;> subst h <;> decide

/-- A safe character is ordinary in the splitter's normal mode. -/
theorem step_norm_safe (k : List Char) (b : Bool) (a : List String) (c : Char)
    (h : isShlexSafe c = true) :
    step ⟨.norm, k, b, a⟩ c = ⟨.norm, k ++ [c], true, a⟩ := by
  have h1 : ¬ (c = '\'') := fun hc => absurd h (by subst hc; decide)
  have h2 : ¬ (c = '"') := fun hc => absurd h (by subst hc; decide)
  have h3 : ¬ (c = '\\') := fun hc => absurd h (by subst hc; decide)
  have h4 : isPySpace c = false := by
    cases hps : isPySpace c
    · rfl
    · rw [pySpace_not_safe c hps] at h
      exact absurd h (by decide)
  simp [step, h1, h2, h3, h4]

theorem runSM_nil (s : SState) : runSM [] s = s := rfl

theorem runSM_cons (c : Char) (cs : List Char) (s : SState) :
    runSM (c :: cs) s = runSM cs (step s c) := rfl

theorem runSM_append (xs ys : List Char) (s : SState) :
    runSM (xs ++ ys) s = runSM ys (runSM xs s) := by
  simp [runSM, List.foldl_append]

theorem step_inv (s : SState) (c : Char) (h : SInv s) : SInv (step s c) := by
  obtain ⟨m, k, b, a⟩ := s
  unfold SInv at h ⊢
  cases m <;> simp only [step] <;> split_ifs <;> intro hb <;> simp_all

theorem runSM_inv (cs : List Char) (s : SState) (h : SInv s) : SInv (runSM cs s) := by
  induction cs generalizing s with
  | nil => exact h
  | cons c cs ih => exact ih _ (step_inv s c h)

/-- Running a non-empty all-safe segment appends it to the current token. -/
theorem runSM_safe (cs : List Char) (k : List Char) (b : Bool) (a : List String)
    (h : cs.all isShlexSafe = true) (hne : cs ≠ []) :
    runSM cs ⟨.norm, k, b, a⟩ = ⟨.norm, k ++ cs, true, a⟩ := by
  induction cs generalizing k b with
  | nil => exact absurd rfl hne
  | cons c cs ih =>
    have hc : isShlexSafe c = true := by
      rw [List.all_eq_true] at h
      exact h c (List.mem_cons_self c cs)
    have hcs : cs.all isShlexSafe = true := by
      rw [List.all_eq_true] at h ⊢
      exact fun x hx => h x (List.mem_cons_of_mem c hx)
    rw [runSM_cons, step_norm_safe k b a c hc]
    cases cs with
    | nil => simp [runSM_nil]
    | cons d ds =>
      rw [ih (k ++ [c]) true hcs (by simp)]
      simp

/-- Running the quoted body of a value in single-quote mode appends the
original characters. -/
theorem runSM_quoteBody (cs : List Char) (k : List Char) (a : List String) :
    runSM (quoteBody cs) ⟨.single, k, true, a⟩ = ⟨.single, k ++ cs, true, a⟩ := by
  induction cs generalizing k with
  | nil => simp [quoteBody, runSM_nil]
  | cons c cs ih =>
    by_cases hc : c = '\''
    · subst hc
      rw [show quoteBody ('\'' :: cs) = '\'' :: '"' :: '\'' :: '"' :: '\'' :: quoteBody cs
          from by simp [quoteBody]]
      rw [runSM_cons, runSM_cons, runSM_cons, runSM_cons, runSM_cons]
      rw [show step ⟨SMode.single, k, true, a⟩ '\'' = ⟨.norm, k, true, a⟩ from by simp [step]]
      rw [show step ⟨SMode.norm, k, true, a⟩ '"' = ⟨.double, k, true, a⟩ from by simp [step]]
      rw [show step ⟨SMode.double, k, true, a⟩ '\'' = ⟨.double, k ++ ['\''], true, a⟩
          from by simp [step]]
      rw [show step ⟨SMode.double, k ++ ['\''], true, a⟩ '"' = ⟨.norm, k ++ ['\''], true, a⟩
          from by simp [step]]
      rw [show step ⟨SMode.norm, k ++ ['\''], true, a⟩ '\'' = ⟨.single, k ++ ['\''], true, a⟩
          from by simp [step]]
      rw [ih]
      simp
    · rw [show quoteBody (c :: cs) = c :: quoteBody cs from by simp [quoteBody, hc]]
      rw [runSM_cons]
      rw [show step ⟨SMode.single, k, true, a⟩ c = ⟨.single, k ++ [c], true, a⟩
          from by simp [step, hc]]
      rw [ih]
      simp

/-- Running a quoted value from a between-tokens state leaves exactly that
value as the pending token. -/
theorem runSM_shlexQuote (v : String) (a : List String) :
    runSM (shlexQuote v).data ⟨.norm, [], false, a⟩ = ⟨.norm, v.data, true, a⟩ := by
  by_cases h0 : v.data.isEmpty
  · have hv : v.data = [] := by
      cases hd : v.data with
      | nil => rfl
      | cons x xs => rw [hd] at h0; simp at h0
    rw [show shlexQuote v = String.mk ['\'', '\''] from by simp [shlexQuote, h0]]
    rw [show (String.mk ['\'', '\'']).data = ['\'', '\''] from rfl]
    rw [runSM_cons, runSM_cons]
    rw [show step ⟨SMode.norm, [], false, a⟩ '\'' = ⟨.single, [], true, a⟩ from by simp [step]]
    rw [show step ⟨SMode.single, [], true, a⟩ '\'' = ⟨.norm, [], true, a⟩ from by simp [step]]
    rw [runSM_nil, hv]
  · by_cases h1 : v.data.all isShlexSafe
    · rw [show shlexQuote v = v from by simp [shlexQuote, h0, h1]]
      have hne : v.data ≠ [] := fun hh => h0 (by rw [hh]; rfl)
      rw [runSM_safe v.data [] false a h1 hne]
      simp
    · rw [show shlexQuote v = String.mk ('\'' :: (quoteBody v.data ++ ['\'']))
          from by simp [shlexQuote, h0, h1]]
      rw [show (String.mk ('\'' :: (quoteBody v.data ++ ['\'']))).data
          = '\'' :: (quoteBody v.data ++ ['\'']) from rfl]
      rw [runSM_cons]
      rw [show step ⟨SMode.norm, [], false, a⟩ '\'' = ⟨.single, [], true, a⟩ from by simp [step]]
      rw [runSM_append, runSM_quoteBody]
      rw [show runSM ['\''] ⟨SMode.single, [] ++ v.data, true, a⟩
          = step ⟨SMode.single, [] ++ v.data, true, a⟩ '\'' from rfl]
      simp [step]

/-- Splitting the quoted form of any value yields exactly that value as the
single token. -/
theorem shellSplit_shlexQuote (v : String) : shellSplit (shlexQuote v) = some [v] := by
  unfold shellSplit initState
  rw [runSM_shlexQuote v []]
  simp [finalize, emitAcc, strMkData]

/-- Two leading dashes prepended at the character level, as a string. -/
theorem dashMk (f : String) : String.mk ('-' :: '-' :: f.data) = "--" ++ f := by
  cases f
  rfl

/-- A final state that splits successfully is in normal mode and its tokens
are `emitAcc`. -/
theorem finalize_inv {s : SState} {ts : List String} (h : finalize s = some ts) :
    s.mode = .norm ∧ emitAcc s = ts := by
  obtain ⟨m, k, b, a⟩ := s
  cases m
  case norm => exact ⟨rfl, Option.some.inj h⟩
  all_goals exact absurd h (by simp [finalize])

/-- Processing one appended ` --<flag> <quoted value>` piece from any state
that is between or inside a token in normal mode: the flag becomes one
token, the value the pending one. -/
theorem runSM_argPiece (fd : List Char) (v : String) (k : List Char) (b : Bool)
    (a : List String) (hinv : SInv ⟨.norm, k, b, a⟩)
    (hf1 : fd ≠ []) (hf2 : fd.all isShlexSafe = true) :
    runSM (' ' :: '-' :: '-' :: (fd ++ (' ' :: (shlexQuote v).data))) ⟨.norm, k, b, a⟩
      = ⟨.norm, v.data, true,
          emitAcc ⟨.norm, k, b, a⟩ ++ [String.mk ('-' :: '-' :: fd)]⟩ := by
  rw [runSM_cons]
  rw [show step ⟨SMode.norm, k, b, a⟩ ' '
      = ⟨.norm, [], false, emitAcc ⟨SMode.norm, k, b, a⟩⟩ from by
    cases b with
    | false =>
      have hk : k = [] := (hinv rfl).1
      subst hk
      simp [step, emitAcc, isPySpace]
    | true => simp [step, emitAcc, isPySpace]]
  rw [runSM_cons]
  rw [show step ⟨SMode.norm, [], false, emitAcc ⟨SMode.norm, k, b, a⟩⟩ '-'
      = ⟨.norm, ['-'], true, emitAcc ⟨SMode.norm, k, b, a⟩⟩ from by simp [step, isPySpace]]
  rw [runSM_cons]
  rw [show step ⟨SMode.norm, ['-'], true, emitAcc ⟨SMode.norm, k, b, a⟩⟩ '-'
      = ⟨.norm, ['-', '-'], true, emitAcc ⟨SMode.norm, k, b, a⟩⟩ from by simp [step, isPySpace]]
  rw [runSM_append]
  rw [runSM_safe fd ['-', '-'] true (emitAcc ⟨SMode.norm, k, b, a⟩) hf2 hf1]
  rw [runSM_cons]
  rw [show step ⟨SMode.norm, ['-', '-'] ++ fd, true, emitAcc ⟨SMode.norm, k, b, a⟩⟩ ' '
      = ⟨.norm, [], false,
          emitAcc ⟨SMode.norm, k, b, a⟩ ++ [String.mk (['-', '-'] ++ fd)]⟩ from by
    simp [step, isPySpace]]
  rw [runSM_shlexQuote]
  simp

/-- Appending one escaped argument to a splittable command line adds exactly
the flag token and the verbatim value token. -/
theorem appendArgSplit (t : String) (ts : List String) (f v : String)
    (ht : shellSplit t = some ts) (hf1 : f.data ≠ [])
    (hf2 : f.data.all isShlexSafe = true) :
    shellSplit (t ++ " --" ++ f ++ " " ++ shlexQuote v) = some (ts ++ ["--" ++ f, v]) := by
  unfold shellSplit at ht ⊢
  obtain ⟨hmode, hemit⟩ := finalize_inv ht
  have hinv : SInv (runSM t.data initState) :=
    runSM_inv t.data initState (fun _ => ⟨rfl, Or.inl rfl⟩)
  have hdata : (t ++ " --" ++ f ++ " " ++ shlexQuote v).data
      = t.data ++ (' ' :: '-' :: '-' :: (f.data ++ (' ' :: (shlexQuote v).data))) := by
    simp [strDataAppend, dataSpaceDashDash]
  rw [hdata, runSM_append]
  rcases hst : runSM t.data initState with ⟨m, k, b, a⟩
  rw [hst] at hmode hemit hinv
  have hm : m = SMode.norm := hmode
  subst hm
  rw [runSM_argPiece f.data v k b a hinv hf1 hf2]
  rw [hemit]
  simp [finalize, emitAcc, strMkData, dashMk]

theorem build_cons (t : String) (p : SkillParameter) (rest : List SkillParameter)
    (vals : String → Option String) :
    build_command t (p :: rest) vals = build_command (applyArg t vals p) rest vals := rfl

/-- The template is always a prefix of the built command line. -/
theorem build_isPrefix (schema : List SkillParameter) :
    ∀ (t : String) (vals : String → Option String),
    t.data <+: (build_command t schema vals).data := by
  induction schema with
  | nil => exact fun t vals => List.prefix_refl t.data
  | cons p rest ih =>
    intro t vals
    rw [build_cons]
    refine List.IsPrefix.trans ?_ (ih (applyArg t vals p) vals)
    cases hv : vals p.name with
    | none => rw [show applyArg t vals p = t from by simp [applyArg, hv]]
    | some v =>
      refine ⟨(" --" ++ flagName p.name ++ " " ++ shlexQuote v).data, ?_⟩
      rw [show applyArg t vals p = t ++ " --" ++ flagName p.name ++ " " ++ shlexQuote v
          from by simp [applyArg, hv]]
      simp [strDataAppend]

/-- Parameters whose supplied value is null contribute nothing. -/
theorem build_noneVals (schema : List SkillParameter) :
    ∀ (t : String) (vals : String → Option String),
    (∀ p ∈ schema, vals p.name = none) → build_command t schema vals = t := by
  induction schema with
  | nil => exact fun t vals _ => rfl
  | cons p rest ih =>
    intro t vals h
    rw [build_cons,
      show applyArg t vals p = t from by simp [applyArg, h p (List.mem_cons_self p rest)]]
    exact ih t vals (fun q hq => h q (List.mem_cons_of_mem p hq))

/-- Splitting the built command line: the template's tokens followed by, per
parameter with a supplied value, its flag token and the verbatim value. -/
theorem build_split (schema : List SkillParameter) :
    ∀ (t : String) (ts : List String) (vals : String → Option String),
    shellSplit t = some ts →
    (∀ p ∈ schema,
      (flagName p.name).data ≠ [] ∧ (flagName p.name).data.all isShlexSafe = true) →
    shellSplit (build_command t schema vals) = some (ts ++ argTokensAll schema vals) := by
  induction schema with
  | nil =>
    intro t ts vals ht _
    rw [show build_command t [] vals = t from rfl, ht]
    simp [argTokensAll]
  | cons p rest ih =>
    intro t ts vals ht hgood
    have hp := hgood p (List.mem_cons_self p rest)
    have hrest : ∀ q ∈ rest,
        (flagName q.name).data ≠ [] ∧ (flagName q.name).data.all isShlexSafe = true :=
      fun q hq => hgood q (List.mem_cons_of_mem p hq)
    rw [build_cons]
    cases hv : vals p.name with
    | none =>
      rw [show applyArg t vals p = t from by simp [applyArg, hv]]
      rw [ih t ts vals ht hrest]
      simp [argTokensAll, argTokens, hv]
    | some v =>
      rw [show applyArg t vals p = t ++ " --" ++ flagName p.name ++ " " ++ shlexQuote v
          from by simp [applyArg, hv]]
      rw [ih (t ++ " --" ++ flagName p.name ++ " " ++ shlexQuote v)
            (ts ++ ["--" ++ flagName p.name, v]) vals
            (appendArgSplit t ts (flagName p.name) v ht hp.1 hp.2) hrest]
      simp [argTokensAll, argTokens, hv]

/-- C1.  `_build_command` appends, for each declared parameter with a
non-null supplied value, ` --<flag-name> <shlex.quote(value)>` (flag names
hyphenate underscores); null-valued or absent parameters contribute nothing,
the template prefix is unchanged, and shell-splitting the result yields each
supplied value — in particular the injection payload `; rm -rf /` — as
exactly one verbatim argument token. -/
theorem c1_build_command_escapes_values (t : String) (ts : List String)
    (schema : List SkillParameter) (vals : String → Option String) (v : String) :
    shellSplit (shlexQuote v) = some [v]
    ∧ shellSplit (shlexQuote "; rm -rf /") = some ["; rm -rf /"]
    ∧ t.data <+: (build_command t schema vals).data
    ∧ ((∀ p ∈ schema, vals p.name = none) → build_command t schema vals = t)
    ∧ (shellSplit t = some ts →
        (∀ p ∈ schema,
          (flagName p.name).data ≠ [] ∧ (flagName p.name).data.all isShlexSafe = true) →
        shellSplit (build_command t schema vals) = some (ts ++ argTokensAll schema vals)) :=
  ⟨shellSplit_shlexQuote v, shellSplit_shlexQuote ("; rm -rf /"),
    build_isPrefix schema t vals, build_noneVals schema t vals,
    fun ht hgood => build_split schema t ts vals ht hgood⟩

/-- Witness for C1: on the concrete template `python hello.py` and the
malicious value, the built command line splits into the template tokens, the
flag, and the payload as one verbatim token. -/
theorem c1_build_command_escapes_values_witness :
    shellSplit "python hello.py" = some ["python", "hello.py"]
    ∧ shellSplit (build_command "python hello.py" demoSchema demoVals)
        = some ["python", "hello.py", "--user-input", "; rm -rf /"] := by
  have h := c1_build_command_escapes_values "python hello.py" ["python", "hello.py"]
    demoSchema demoVals "; rm -rf /"
  refine ⟨by decide, ?_⟩
  have h5 := h.2.2.2.2 (by decide) (by decide)
  exact h5.trans (by decide)

/-- C2.  When the token scan identifies a script token, validation resolves
it against the skill directory: a canonical path that is not a descendant of
the canonical skill directory is rejected as a sandbox escape (regardless of
whether the file exists — in particular for `python ../x.py` with an
all-existing file system), and a contained path whose file does not exist is
rejected as script-not-found. -/
theorem c2_validate_sandbox_and_existence (fsE : List String → Bool) (entry : String)
    (dir : List String) (parts : List String) (script : String)
    (h1 : runtimeAllowed entry = true)
    (h2 : shellSplit entry = some parts)
    (h3 : findScriptToken parts = .script script) :
    ((resolveComponents dir).isPrefixOf (resolveComponents (dir ++ splitSlash script)) = false →
        validate_entry_command fsE entry dir = .failed (.escapesSandbox script))
    ∧ ((resolveComponents dir).isPrefixOf (resolveComponents (dir ++ splitSlash script)) = true →
        fsE (resolveComponents (dir ++ splitSlash script)) = false →
        validate_entry_command fsE entry dir = .failed (.scriptNotFound script))
    ∧ validate_entry_command (fun _ => true) "python ../x.py" ["skills", "demo"]
        = .failed (.escapesSandbox "../x.py") := by
  refine ⟨?_, ?_, by decide⟩
  · intro hp
    simp [validate_entry_command, h1, h2, h3, hp]
  · intro hp hfs
    simp [validate_entry_command, h1, h2, h3, hp, hfs]

/-- Witness for C2: the spec's own example `python ../x.py` escapes the
sandbox even though every path exists. -/
theorem c2_validate_sandbox_and_existence_witness :
    runtimeAllowed "python ../x.py" = true
    ∧ shellSplit "python ../x.py" = some ["python", "../x.py"]
    ∧ findScriptToken ["python", "../x.py"] = .script "../x.py"
    ∧ validate_entry_command (fun _ => true) "python ../x.py" ["skills", "demo"]
        = .failed (.escapesSandbox "../x.py") :=
  ⟨by decide, by decide, by decide,
    (c2_validate_sandbox_and_existence (fun _ => true) "python ../x.py" ["skills", "demo"]
      ["python", "../x.py"] "../x.py" (by decide) (by decide) (by decide)).1 (by decide)⟩

/-- C3 counterexample: the token loop breaks at the first script token, so an
absolute path appearing after it is never examined — `python a.py /etc/passwd`
validates successfully although its third shell token is absolute. -/
theorem c3_absolute_token_after_script_accepted :
    validate_entry_command (fun p => decide (p = ["skills", "demo", "a.py"]))
        "python a.py /etc/passwd" ["skills", "demo"] = .passed
    ∧ shellSplit "python a.py /etc/passwd" = some ["python", "a.py", "/etc/passwd"]
    ∧ isAbsPath "/etc/passwd" = true :=
  ⟨by decide, by decide, by decide⟩

/-- An absolute token occurring before any script-looking token makes the
scan fail with the absolute-path error. -/
theorem findScript_firstAbs (pre : List String) (tok : String) (post : List String)
    (hpre : ∀ q ∈ pre,
      isAbsPath q = false ∧ isScriptToken q = false ∧ strStartsWith q "./" = false)
    (habs : isAbsPath tok = true) :
    findScriptToken (pre ++ tok :: post) = .fail (.absolutePath tok) := by
  induction pre with
  | nil => simp [findScriptToken, habs]
  | cons q qs ih =>
    have hq := hpre q (List.mem_cons_self q qs)
    simp only [List.cons_append, findScriptToken, hq.1, hq.2.1, hq.2.2]
    simp only [Bool.false_eq_true, if_false]
    exact ih (fun r hr => hpre r (List.mem_cons_of_mem q hr))

/-- C3 amended: validation rejects with an absolute-path error exactly those
commands whose tokenization has an absolute token at or before the first
script-looking token; tokens after the first script token are not checked. -/
theorem c3_amended_absolute_before_script (fsE : List String → Bool) (entry : String)
    (dir : List String) (pre : List String) (tok : String) (post : List String)
    (h1 : runtimeAllowed entry = true)
    (h2 : shellSplit entry = some (pre ++ tok :: post))
    (hpre : ∀ q ∈ pre,
      isAbsPath q = false ∧ isScriptToken q = false ∧ strStartsWith q "./" = false)
    (habs : isAbsPath tok = true) :
    validate_entry_command fsE entry dir = .failed (.absolutePath tok) := by
  simp [validate_entry_command, h1, h2, findScript_firstAbs pre tok post hpre habs]

/-- Witness for the amended C3: an absolute script path is rejected. -/
theorem c3_amended_absolute_before_script_witness :
    runtimeAllowed "python /etc/x.py" = true
    ∧ shellSplit "python /etc/x.py" = some (["python"] ++ "/etc/x.py" :: [])
    ∧ isAbsPath "/etc/x.py" = true
    ∧ validate_entry_command (fun _ => true) "python /etc/x.py" ["skills", "demo"]
        = .failed (.absolutePath "/etc/x.py") :=
  ⟨by decide, by decide, by decide,
    c3_amended_absolute_before_script (fun _ => true) "python /etc/x.py" ["skills", "demo"]
      ["python"] "/etc/x.py" [] (by decide) (by decide) (by decide) (by decide)⟩

/-- C10.  The allowed-runtime check is a character-level string-prefix test:
any command whose leading characters match an allow-list entry passes, even
when its first whitespace-delimited token is a different program — `shutdown
now` passes (prefix `sh`) and indeed validates to success, although
`shutdown` itself is not an allowed runtime. -/
theorem c10_runtime_check_is_prefix_test (entry rt : String)
    (hmem : rt ∈ ALLOWED_RUNTIMES) (hpre : strStartsWith entry rt = true) :
    runtimeAllowed entry = true
    ∧ runtimeAllowed "shutdown now" = true
    ∧ strStartsWith "shutdown now" "sh" = true
    ∧ shellSplit "shutdown now" = some ["shutdown", "now"]
    ∧ ¬ "shutdown" ∈ ALLOWED_RUNTIMES
    ∧ validate_entry_command (fun _ => false) "shutdown now" ["skills", "demo"] = .passed := by
  refine ⟨?_, by decide, by decide, by decide, by decide, by decide⟩
  exact List.any_eq_true.mpr ⟨rt, hmem, hpre⟩

/-- Witness for C10 at the concrete prefix `sh` of `shutdown now`. -/
theorem c10_runtime_check_is_prefix_test_witness :
    "sh" ∈ ALLOWED_RUNTIMES
    ∧ strStartsWith "shutdown now" "sh" = true
    ∧ runtimeAllowed "shutdown now" = true :=
  ⟨by decide, by decide,
    (c10_runtime_check_is_prefix_test "shutdown now" "sh" (by decide) (by decide)).1⟩

/-- C4.  `infer_type` applies its rules in a fixed order with the first match
winning: missing (or empty) placeholder gives `bool`; then int-words in the
placeholder, then string-words in the placeholder, then integer/number,
float/decimal, and boolean words in the description; otherwise `string`. -/
theorem c4_infer_type_rule_order (mv d : String) :
    infer_type none "" = "bool"
    ∧ infer_type (some "YEAR") "" = "int"
    ∧ infer_type (some "FOO") "an integer value" = "int"
    ∧ (mv.data ≠ [] → containsWord (lowerL mv.data) intWords = true →
        infer_type (some mv) d = "int")
    ∧ (mv.data ≠ [] → containsWord (lowerL mv.data) intWords = false →
        containsWord (lowerL mv.data) strWords = true →
        infer_type (some mv) d = "string")
    ∧ (mv.data ≠ [] → containsWord (lowerL mv.data) intWords = false →
        containsWord (lowerL mv.data) strWords = false →
        containsWord (lowerL d.data) intDescWords = true →
        infer_type (some mv) d = "int")
    ∧ (mv.data ≠ [] → containsWord (lowerL mv.data) intWords = false →
        containsWord (lowerL mv.data) strWords = false →
        containsWord (lowerL d.data) intDescWords = false →
        containsWord (lowerL d.data) floatDescWords = true →
        infer_type (some mv) d = "float")
    ∧ (mv.data ≠ [] → containsWord (lowerL mv.data) intWords = false →
        containsWord (lowerL mv.data) strWords = false →
        containsWord (lowerL d.data) intDescWords = false →
        containsWord (lowerL d.data) floatDescWords = false →
        containsWord (lowerL d.data) boolDescWords = true →
        infer_type (some mv) d = "bool")
    ∧ (mv.data ≠ [] → containsWord (lowerL mv.data) intWords = false →
        containsWord (lowerL mv.data) strWords = false →
        containsWord (lowerL d.data) intDescWords = false →
        containsWord (lowerL d.data) floatDescWords = false →
        containsWord (lowerL d.data) boolDescWords = false →
        infer_type (some mv) d = "string") := by
  have hne : mv.data ≠ [] → mv.data.isEmpty = false := by
    intro h
    cases hd : mv.data with
    | nil => exact absurd hd h
    | cons x xs => rfl
  refine ⟨by decide, by decide, by decide, ?_, ?_, ?_, ?_, ?_, ?_⟩
  · intro h0 h1
    simp [infer_type, hne h0, h1]
  · intro h0 h1 h2
    simp [infer_type, hne h0, h1, h2]
  · intro h0 h1 h2 h3
    simp [infer_type, hne h0, h1, h2, h3]
  · intro h0 h1 h2 h3 h4
    simp [infer_type, hne h0, h1, h2, h3, h4]
  · intro h0 h1 h2 h3 h4 h5
    simp [infer_type, hne h0, h1, h2, h3, h4, h5]
  · intro h0 h1 h2 h3 h4 h5
    simp [infer_type, hne h0, h1, h2, h3, h4, h5]

/-- Witness for C4 at the concrete metavar `SIZE`. -/
theorem c4_infer_type_rule_order_witness :
    "SIZE".data ≠ []
    ∧ containsWord (lowerL "SIZE".data) intWords = true
    ∧ infer_type (some "SIZE") "" = "int" :=
  ⟨by decide, by decide,
    (c4_infer_type_rule_order "SIZE" "").2.2.2.1 (by decide) (by decide)⟩

/-- C5 (code bug).  On the claim's usage line the usage-line heuristic does
compute `year` as the only required parameter, and the continuation-line
layout yields exactly the claimed parameters — but on the default argparse
layout (descriptions on the same line, the layout the repository's own tests
use) `parse_parameters` raises `UnboundLocalError`: the statement `i = j`
reads the local `j`, which the same-line-description branch never assigns. -/
theorem c5_parse_parameters_unbound_local :
    parse_parameters sameLineHelp = .crash
    ∧ parse_parameters nextLineHelp = .ok nextLineParams
    ∧ requiredParamsOf ("usage: s [-h] --year YEAR [--file FILE]".data) = ["year".data] :=
  ⟨by decide, by decide, by decide⟩

/-- C6 (code bug).  A failed or timed-out top-level help invocation yields an
empty mapping without raising, and a successful one with no subcommands
yields exactly one `default` command with the entry command as its template —
but only when `parse_parameters` survives the help output: on the default
same-line layout the `UnboundLocalError` propagates out of
`discover_commands` instead of a mapping being returned. -/
theorem c6_discover_default_command (runTop : RunResult) (runSub : String → RunResult)
    (entry : String) (h : runTop.returncode ≠ 0) :
    discover_commands runTop runSub entry = .ok []
    ∧ (∀ (rs : String → RunResult) (e : String),
        discover_commands ⟨nextLineHelp, "", 0⟩ rs e
          = .ok [("default", ⟨"default", "", e, nextLineParams⟩)])
    ∧ (∀ (rs : String → RunResult) (e : String),
        discover_commands ⟨sameLineHelp, "", 0⟩ rs e = .crash) := by
  refine ⟨?_, ?_, ?_⟩
  · simp [discover_commands, h]
  · intro rs e
    have hsubs : parse_subcommands nextLineHelp = [] := by decide
    have hpp : parse_parameters nextLineHelp = .ok nextLineParams := by decide
    simp [discover_commands, hsubs, hpp]
  · intro rs e
    have hsubs : parse_subcommands sameLineHelp = [] := by decide
    have hpp : parse_parameters sameLineHelp = .crash := by decide
    simp [discover_commands, hsubs, hpp]

/-- Witness for C6 at a failing top-level invocation. -/
theorem c6_discover_default_command_witness :
    ((⟨"", "boom", 1⟩ : RunResult).returncode ≠ 0)
    ∧ discover_commands ⟨"", "boom", 1⟩ (fun _ => ⟨"", "", 0⟩) "python s.py" = .ok [] :=
  ⟨by decide,
    (c6_discover_default_command ⟨"", "boom", 1⟩ (fun _ => ⟨"", "", 0⟩) "python s.py"
      (by decide)).1⟩

/-- C7 (code bug).  With three discovered subcommands of which `beta` times
out, the timed-out subcommand is omitted and — when the surviving help
outputs use the continuation-line layout — the other two appear with their
parsed parameters; but when a surviving subcommand answers in the default
same-line layout, the `parse_parameters` crash fails the whole discovery
instead of that subcommand being returned. -/
theorem c7_one_failing_subcommand :
    parse_subcommands threeSubsHelp
      = [("alpha".data, "do a".data), ("beta".data, "do b".data),
         ("gamma".data, "do c".data)]
    ∧ (runSubSame "beta").returncode = -1
    ∧ discover_commands ⟨threeSubsHelp, "", 0⟩ runSubNext "python s.py"
        = .ok [("alpha", ⟨"alpha", "do a", "python s.py alpha",
                  [⟨"x", false, "string", "the x"⟩]⟩),
               ("gamma", ⟨"gamma", "do c", "python s.py gamma",
                  [⟨"x", false, "string", "the x"⟩]⟩)]
    ∧ discover_commands ⟨threeSubsHelp, "", 0⟩ runSubSame "python s.py" = .crash :=
  ⟨by decide, by decide, by decide, by decide⟩

/-- C8 counterexample: with exit code 0, an empty diff, and a marker naming
an existing absolute file outside the skill directory, the executor raises
(`relative_to` fails) instead of reporting the file. -/
theorem c8_absolute_marker_raises :
    detectNewFiles [] [] 0 "OUTPUT_FILE:/etc/passwd" ["skills", "demo"]
        (fun p => decide (p = ["etc", "passwd"])) = none
    ∧ (fun p => decide (p = ["etc", "passwd"])) (splitSlash "/etc/passwd") = true :=
  ⟨by decide, by decide⟩

/-- C8 amended.  The new-output-file list is the sorted before/after diff of
the `output/` directory reported relative to the skill directory; only on
exit code 0 with an empty diff does the executor fall back to the
`OUTPUT_FILE:` stdout marker, taking the referenced file as the sole new
output provided it exists and its path is relative (or absolute beneath the
skill directory — an existing absolute path outside it raises instead). -/
theorem c8_amended_output_detection (before after : List String) (rc : Int)
    (stdout : String) (cwd : List String) (isF : List String → Bool) (raw : List Char) :
    (¬ (rc = 0 ∧ sortStr (after.filter (fun n => !(before.contains n))) = []) →
        detectNewFiles before after rc stdout cwd isF
          = some ((sortStr (after.filter (fun n => !(before.contains n)))).map
              (fun n => "output/" ++ n)))
    ∧ (rc = 0 → sortStr (after.filter (fun n => !(before.contains n))) = [] →
        findMarker stdout.data = some raw →
        isAbsPath (String.mk (trimChars raw)) = false →
        isF (cwd ++ splitSlash (String.mk (trimChars raw))) = true →
        detectNewFiles before after rc stdout cwd isF
          = some [String.mk (trimChars raw)])
    ∧ detectNewFiles [] ["result.csv"] 0 "" ["skills", "demo"] (fun _ => false)
        = some ["output/result.csv"]
    ∧ detectNewFiles [] [] 0 "OUTPUT_FILE:output/r.csv" ["skills", "demo"]
        (fun p => decide (p = ["skills", "demo", "output", "r.csv"]))
        = some ["output/r.csv"] := by
  refine ⟨?_, ?_, by decide, by decide⟩
  · intro h
    simp only [detectNewFiles]
    rw [if_neg h]
  · intro h0 h1 h2 h3 h4
    simp only [detectNewFiles]
    rw [if_pos ⟨h0, h1⟩, h2]
    simp [h3, h4]

/-- Witness for C8 at a relative marker path. -/
theorem c8_amended_output_detection_witness :
    findMarker ("OUTPUT_FILE:data.txt".data) = some ("data.txt".data)
    ∧ detectNewFiles [] [] 0 "OUTPUT_FILE:data.txt" ["skills", "demo"]
        (fun p => decide (p = ["skills", "demo", "data.txt"])) = some ["data.txt"] := by
  refine ⟨by decide, ?_⟩
  have h := (c8_amended_output_detection [] [] 0 "OUTPUT_FILE:data.txt" ["skills", "demo"]
      (fun p => decide (p = ["skills", "demo", "data.txt"])) ("data.txt".data)).2.1
      rfl (by decide) (by decide) (by decide) (by decide)
  exact h.trans (by decide)

/-- C9.  A non-zero exit code does not raise: the executor returns an
`ExecutionResult` carrying `success = (return code = 0)`, the exit code, and
the captured stdout/stderr — while an unknown command name or a missing
required parameter raises before any process is spawned (the outcome does
not depend on the subprocess oracle). -/
theorem c9_execute_error_semantics (fsE : List String → Bool) (skill : SkillModel)
    (commandName : String) (params : List (String × Option String))
    (sub : SubprocessSpec) :
    (lookupCmd skill.commands commandName = none →
        execute fsE skill commandName params sub = .raised (.unknownCommand commandName))
    ∧ (∀ cmd, lookupCmd skill.commands commandName = some cmd →
        validate_entry_command fsE skill.entry_command skill.directory = .passed →
        missingOf cmd params ≠ [] →
        execute fsE skill commandName params sub
          = .raised (.missingParams (missingOf cmd params)))
    ∧ (∀ cmd files, lookupCmd skill.commands commandName = some cmd →
        validate_entry_command fsE skill.entry_command skill.directory = .passed →
        missingOf cmd params = [] →
        detectNewFiles sub.beforeOutput sub.afterOutput sub.returncode sub.stdout
            skill.directory sub.isFileAt = some files →
        execute fsE skill commandName params sub
          = .returned ⟨decide (sub.returncode = 0), sub.stdout, sub.stderr,
              sub.returncode, files⟩)
    ∧ (∀ cmd files, lookupCmd skill.commands commandName = some cmd →
        validate_entry_command fsE skill.entry_command skill.directory = .passed →
        missingOf cmd params = [] →
        detectNewFiles sub.beforeOutput sub.afterOutput sub.returncode sub.stdout
            skill.directory sub.isFileAt = some files →
        sub.returncode ≠ 0 →
        execute fsE skill commandName params sub
          = .returned ⟨false, sub.stdout, sub.stderr, sub.returncode, files⟩) := by
  refine ⟨?_, ?_, ?_, ?_⟩
  · intro h
    simp [execute, h]
  · intro cmd h1 h2 h3
    simp [execute, h1, h2, h3]
  · intro cmd files h1 h2 h3 h4
    simp [execute, h1, h2, h3, h4]
  · intro cmd files h1 h2 h3 h4 h5
    simp [execute, h1, h2, h3, h4, decide_eq_false h5]

/-- Witness for C9: a process exiting with code 2 produces a returned result
with `success = false` and the captured streams, not an exception. -/
theorem c9_execute_error_semantics_witness :
    lookupCmd demoSkill.commands "default" = some demoCmd
    ∧ validate_entry_command demoFs demoSkill.entry_command demoSkill.directory = .passed
    ∧ missingOf demoCmd [("year", some "2024")] = []
    ∧ execute demoFs demoSkill "default" [("year", some "2024")] demoSub
        = .returned ⟨false, "boom-out", "boom-err", 2, []⟩ := by
  refine ⟨by decide, by decide, by decide, ?_⟩
  exact (c9_execute_error_semantics demoFs demoSkill "default" [("year", some "2024")]
      demoSub).2.2.2 demoCmd [] (by decide) (by decide) (by decide) (by decide) (by decide)
